import Mathlib

/-!
Verification of the SARIMA exploration pipeline in `quantfin/models/arima.py`.

The statistics library calls (`SARIMAX(...).fit`, `adfuller`, `acf`) are
external collaborators; they are abstracted as function parameters:
  * `fit c` models `sm.tsa.statespace.SARIMAX(series, order=(c.1, d, c.2),
    seasonal_order=(c.3, ds, c.4, s)).fit(disp=-1)` for a fixed series and
    fixed `(d, ds, s)`; it is `none` when the fit raises and `some aic`
    (the fitted model's AIC) when it succeeds.
  * `pv k` models `sm.tsa.stattools.adfuller((series - series.shift(k))[k:])[1]`,
    the ADF p-value of the lag-`k`-differenced, truncated series.
  * `macf k` models `np.mean(sm.tsa.stattools.acf((series - series.shift(k))[k:]))`,
    the mean autocorrelation of the lag-`k`-differenced, truncated series.

Python floats carrying statistics (p-values, AIC, mean ACF) are modelled by
`ℚ`; the error metric, where division by zero matters, is modelled by
`PyFloat` (finite rational, +inf, -inf, nan) with IEEE-754 special-value
propagation for the operations the code uses.
-/

namespace Arima

/-- A candidate hyperparameter tuple `(p, q, P, Q)`. -/
abbrev Param := ℕ × ℕ × ℕ × ℕ

/-- The Python exceptions the embedded functions can raise. -/
inductive PyError where
  /-- `UnboundLocalError` at line 58: `display_header` is read in the loop but
  is only assigned (line 55) when `display` is true. -/
  | unboundLocalDisplayHeader
  /-- `ValueError` (length mismatch) at line 80: `result_table.columns = [...]`
  on the empty DataFrame built from an empty `results` list, before any row
  of the result table can be selected. -/
  | emptyResultTable
  /-- `UnboundLocalError` at line 108: `d = d_best` when no loop iteration
  assigned `d_best`. -/
  | unboundLocalDBest
  /-- `UnboundLocalError` at line 127: `series.shift(d + s)` reads `d` and `s`,
  which are only assigned inside the `if optimize:` blocks. -/
  | unboundLocalD
  deriving Repr, DecidableEq

/-- Line 47: `parameters_list = list(product(p, q, ps, qs))`.
`itertools.product` enumerates with the rightmost factor varying fastest. -/
def parametersList (p q ps qs : List ℕ) : List Param :=
  p.flatMap fun a => q.flatMap fun b => ps.flatMap fun c => qs.map fun e => (a, b, c, e)

/-- Comparison of a float against a running best that starts at
`float("inf")` (`none` is the initial infinity). -/
def ltBest (a : ℚ) : Option ℚ → Bool
  | none => true
  | some b => decide (a < b)

/-- The local state mutated by the grid-search loop of `optimize`
(lines 49-77).  `displayHeader = none` models the variable being unassigned;
`bestAic = none` models `best_aic = float("inf")`. -/
structure LoopState where
  displayHeader : Option Bool
  bestAic : Option ℚ
  results : List (Param × ℚ)

/-- Lines 57-77: the body of `for param in tqdm_notebook(parameters_list):`.
Each iteration first reads `display_header` (raising if it was never
assigned), clears it if it was true, then attempts the fit; a raising fit is
skipped by `continue`, a successful fit updates the running best AIC and
appends `[param, model.aic]` to `results`. -/
def optimizeLoop (fit : Param → Option ℚ) :
    List Param → LoopState → Except PyError LoopState
  | [], st => .ok st
  | param :: rest, st =>
    match st.displayHeader with
    | none => .error .unboundLocalDisplayHeader
    | some dh =>
      let st1 := if dh then { st with displayHeader := some false } else st
      match fit param with
      | none => optimizeLoop fit rest st1
      | some aic =>
        let st2 := if ltBest aic st1.bestAic
          then { st1 with bestAic := some aic } else st1
        optimizeLoop fit rest { st2 with results := st2.results ++ [(param, aic)] }

/-- Lines 40-89: `optimize(series, p, d, q, ps, ds, qs, s, display)`.
The series and the fixed `(d, ds, s)` are absorbed into `fit`.  After the
loop, `results` is turned into a DataFrame (raising on an empty list when the
two column labels are assigned), sorted ascending by AIC
(`sort_values(by='aic', ascending=True)`, modelled by a comparison sort on
the recorded AIC; pandas' default `kind='quicksort'` leaves the order of
equal keys implementation-defined), and the parameter tuple of the first row
is returned. -/
def optimize (fit : Param → Option ℚ) (p q ps qs : List ℕ) (display : Bool) :
    Except PyError Param :=
  let params := parametersList p q ps qs
  let init : LoopState :=
    { displayHeader := if display then some true else none
      bestAic := none
      results := [] }
  match optimizeLoop fit params init with
  | .error e => .error e
  | .ok st =>
    match List.insertionSort (fun x y : Param × ℚ => x.2 ≤ y.2) st.results with
    | [] => .error .emptyResultTable
    | best :: _ => .ok best.1

/-- The list `[0, 1, ..., n-1]` of `range(n)`, as Python integers. -/
def intRange (n : ℕ) : List ℤ := (List.range n).map Int.ofNat

/-- Lines 100-107: the non-seasonal differencing search.
`p_value_best` starts at `0.0001`; an iteration whose p-value is strictly
below it assigns `d_best` and breaks immediately, so `p_value_best` never
changes before the break.  Returns `none` when no iteration ever assigned
`d_best` (so `d = d_best` raises). -/
def dSearchLoop (pv : ℤ → ℚ) : List ℤ → ℚ → Option ℤ
  | [], _ => none
  | d :: rest, pBest =>
    if pBest > pv d then some d
    else dSearchLoop pv rest pBest

/-- Lines 113-121: the seasonal-length scan.  Starting from `s_best = 0` and
`acf_best = float("inf")`, every lag `s` in the range is visited (no break);
a strictly smaller mean autocorrelation of the lag-`(d+s)`-differenced series
updates both accumulators. -/
def sSearchLoop (macf : ℤ → ℚ) (d : ℤ) : List ℤ → Option ℚ → ℤ → ℤ
  | [], _, sBest => sBest
  | s :: rest, acfBest, sBest =>
    let a := macf (d + s)
    if ltBest a acfBest then sSearchLoop macf d rest (some a) s
    else sSearchLoop macf d rest acfBest sBest

/-- Lines 92-145: `seasonality(series, par_range, lags, optimize, graph)`,
with the plotting branch (`graph`) omitted as display-only.  With
`opt = true` it runs the `d` search then the `s` scan and sets
`ds = 1 if s > 0 else 0`; with `opt = false` both blocks are skipped and
line 127 reads the never-assigned `d` and `s`.  The final ADF call of
line 128 is pure in this model and its value is discarded. -/
def seasonality (pv macf : ℤ → ℚ) (parRange : ℕ) (opt : Bool) :
    Except PyError (ℤ × ℤ × ℤ) :=
  if opt then
    match dSearchLoop pv (intRange parRange) (mkRat 1 10000) with
    | none => .error .unboundLocalDBest
    | some d =>
      let s := sSearchLoop macf d (intRange parRange) none 0
      let ds : ℤ := if 0 < s then 1 else 0
      let _pvFinal := pv (d + s)
      .ok (d, ds, s)
  else .error .unboundLocalD

/-- A Python/numpy float as the error metric sees it: an exact finite value,
a signed infinity, or `nan`.  Rounding is not modelled; the special values
are, because the code divides without guarding against zero. -/
inductive PyFloat where
  | fin (q : ℚ)
  | inf
  | ninf
  | nan
  deriving Repr, DecidableEq

/-- IEEE division of finite values: `a / 0` is `±inf` for `a ≠ 0` and `nan`
for `0 / 0` (numpy emits these silently; warnings are suppressed at module
load, line 34). -/
def pyDiv (a b : ℚ) : PyFloat :=
  if b = 0 then
    if a = 0 then .nan else if 0 < a then .inf else .ninf
  else .fin (a / b)

/-- Subtracting the constant `1`, propagating special values. -/
def pySubOne : PyFloat → PyFloat
  | .fin q => .fin (q - 1)
  | .inf => .inf
  | .ninf => .ninf
  | .nan => .nan

/-- `np.abs`, propagating special values. -/
def pyAbs : PyFloat → PyFloat
  | .fin q => .fin (abs q)
  | .inf => .inf
  | .ninf => .inf
  | .nan => .nan

/-- Multiplication by the constant `100`, propagating special values. -/
def pyMulHundred : PyFloat → PyFloat
  | .fin q => .fin (q * 100)
  | .inf => .inf
  | .ninf => .ninf
  | .nan => .nan

/-- IEEE addition: `nan` is absorbing and `inf + (-inf)` is `nan`. -/
def pyAdd : PyFloat → PyFloat → PyFloat
  | .nan, _ => .nan
  | _, .nan => .nan
  | .inf, .ninf => .nan
  | .ninf, .inf => .nan
  | .inf, _ => .inf
  | _, .inf => .inf
  | .ninf, _ => .ninf
  | _, .ninf => .ninf
  | .fin a, .fin b => .fin (a + b)

/-- Division of a float by a positive count, propagating special values. -/
def pyDivNat : PyFloat → ℕ → PyFloat
  | .fin q, n => .fin (q / (n : ℚ))
  | .inf, _ => .inf
  | .ninf, _ => .ninf
  | .nan, _ => .nan

/-- `np.mean`: sum divided by length; the mean of an empty array is `nan`
(numpy warns and returns `nan`; warnings are suppressed). -/
def pyMean (l : List PyFloat) : PyFloat :=
  match l with
  | [] => .nan
  | _ :: _ => pyDivNat (l.foldl pyAdd (.fin 0)) l.length

/-- Lines 169-171 and 180: `error(data, predict)` returns
`np.mean(np.abs((data[10:] / predict.predicted_mean[10:]) - 1) * 100)`.
The two pandas series are index-aligned; the model takes the aligned value
sequences, drops the first 10 entries of each, and pairs them positionally. -/
def error (data predicted : List ℚ) : PyFloat :=
  let a := data.drop 10
  let p := predicted.drop 10
  pyMean ((a.zip p).map fun xy => pyMulHundred (pyAbs (pySubOne (pyDiv xy.1 xy.2))))

/-- The comparison `sort_values` uses on the AIC column is total and
transitive. -/
instance : IsTotal (Param × ℚ) (fun x y => x.2 ≤ y.2) := ⟨fun a b => le_total a.2 b.2⟩

instance : IsTrans (Param × ℚ) (fun x y => x.2 ≤ y.2) := ⟨fun _ _ _ h1 h2 => le_trans h1 h2⟩

theorem optimizeLoop_ok_results (fit : Param → Option ℚ) :
    ∀ (params : List Param) (st st2 : LoopState),
      optimizeLoop fit params st = .ok st2 →
      st2.results = st.results ++ params.filterMap fun c => (fit c).map fun a => (c, a) := by
  intro params
  induction params with
  | nil =>
    intro st st2 h
    simp only [optimizeLoop, Except.ok.injEq] at h
    simp [h]
  | cons param rest ih =>
    rintro ⟨sdh, sbest, sres⟩ st2 h
    cases sdh with
    | none => simp [optimizeLoop] at h
    | some dh =>
      cases hf : fit param with
      | none =>
        cases dh <;>
          · simp [optimizeLoop, hf] at h
            simpa [hf, List.filterMap_cons] using ih _ _ h
      | some aic =>
        cases dh <;> cases hlt : ltBest aic sbest <;>
          · simp [optimizeLoop, hf, hlt] at h
            simpa [hf, List.filterMap_cons, List.append_assoc] using ih _ _ h





/-- Claim C1: the tuple returned by a successful `optimize` has an AIC less
than or equal to the AIC of every other candidate whose fit succeeds. -/
theorem optimize_selects_min_aic (fit : Param → Option ℚ) (p q ps qs : List ℕ)
    (display : Bool) (best : Param)
    (h : optimize fit p q ps qs display = .ok best) :
    ∃ b, fit best = some b ∧
      ∀ c ∈ parametersList p q ps qs, ∀ a, fit c = some a → b ≤ a := by
  simp only [optimize] at h
  split at h
  · cases h
  next st hloop =>
    have hres := optimizeLoop_ok_results fit _ _ _ hloop
    simp only [List.nil_append] at hres
    split at h
    · cases h
    next bestPair tail hsort =>
      have hbest : best = bestPair.1 := by
        simpa [eq_comm] using h
      have hperm := List.perm_insertionSort (fun x y : Param × ℚ => x.2 ≤ y.2) st.results
      rw [hsort] at hperm
      have hsorted := List.sorted_insertionSort (fun x y : Param × ℚ => x.2 ≤ y.2) st.results
      rw [hsort] at hsorted
      have hmem : bestPair ∈ st.results := hperm.mem_iff.mp (List.mem_cons_self _ _)
      rw [hres] at hmem
      obtain ⟨c0, _, hc0⟩ := List.mem_filterMap.mp hmem
      obtain ⟨a0, ha0, hpair⟩ := Option.map_eq_some'.mp hc0
      refine ⟨bestPair.2, ?_, ?_⟩
      · rw [hbest, ← hpair]
        simpa using ha0
      · intro c hc a ha
        have hcmem : (c, a) ∈ st.results := by
          rw [hres]
          exact List.mem_filterMap.mpr ⟨c, hc, by rw [ha]; rfl⟩
        have : (c, a) ∈ bestPair :: tail := hperm.mem_iff.mpr hcmem
        rcases List.mem_cons.mp this with heq | htail
        · rw [← heq]
        · exact List.rel_of_sorted_cons hsorted _ htail




/-- Claim C1 witness: the grid `p ∈ {0,1}`, `q = P = Q = 0` with AIC equal to
`p` selects `(0,0,0,0)`, whose AIC bounds every successful candidate. -/
theorem optimize_selects_min_aic_w :
    ∃ b, (fun c : Param => some ((c.1 : ℚ))) (0, 0, 0, 0) = some b ∧
      ∀ c ∈ parametersList [0, 1] [0] [0] [0], ∀ a,
        (fun c : Param => some ((c.1 : ℚ))) c = some a → b ≤ a :=
  optimize_selects_min_aic (fun c => some ((c.1 : ℚ))) [0, 1] [0] [0] [0] true
    (0, 0, 0, 0) rfl

/-- Claim C2: when every fit raises, `optimize` does not return a value and
does not report a dedicated "no viable model" failure; it crashes while
labelling the empty result table (pandas `ValueError: Length mismatch` at
line 80, the spec's "attempt to index into an empty result set"). -/
theorem optimize_all_fail_crashes :
    optimize (fun _ => none) [0] [0] [0] [0] true = .error .emptyResultTable := rfl

/-- Claim C9: with a non-empty candidate list and `display=False`, the first
loop iteration reads the never-assigned `display_header` and raises
`UnboundLocalError`; `optimize` can only complete when `display` is true. -/
theorem optimize_display_false_raises (fit : Param → Option ℚ) (p q ps qs : List ℕ)
    (h : parametersList p q ps qs ≠ []) :
    optimize fit p q ps qs false = .error .unboundLocalDisplayHeader := by
  simp only [optimize]
  cases hp : parametersList p q ps qs with
  | nil => exact absurd hp h
  | cons c rest => rfl

/-- Claim C9 witness: a singleton grid with an always-succeeding fit still
raises when `display=False`. -/
theorem optimize_display_false_raises_w :
    optimize (fun _ => some 1) [0] [0] [0] [0] false
      = .error .unboundLocalDisplayHeader :=
  optimize_display_false_raises (fun _ => some 1) [0] [0] [0] [0] (by decide)

@[simp] theorem ltBest_none (x : ℚ) : ltBest x none = true := rfl

@[simp] theorem ltBest_some (x b : ℚ) : ltBest x (some b) = decide (x < b) := rfl

theorem mkRat_threshold : (mkRat 1 10000 : ℚ) = 1 / 10000 := by
  norm_num [mkRat, Rat.normalize]

theorem mem_intRange_of_lt {n k : ℕ} (h : k < n) : (Int.ofNat k) ∈ intRange n :=
  List.mem_map.mpr ⟨k, List.mem_range.mpr h, rfl⟩

theorem intRange_nonneg {n : ℕ} : ∀ x ∈ intRange n, 0 ≤ x := by
  intro x hx
  obtain ⟨k, _, rfl⟩ := List.mem_map.mp hx
  exact Int.ofNat_nonneg k

theorem intRange_succ_eq_cons (m : ℕ) :
    intRange (m + 1) = (0 : ℤ) :: (List.range m).map (fun k => Int.ofNat (k + 1)) := by
  simp [intRange, List.range_succ_eq_map, List.map_map, Function.comp]

/-- If no lag in the list improves on the running best p-value, the `d`
search assigns no `d_best`. -/
theorem dSearchLoop_eq_none (pv : ℤ → ℚ) :
    ∀ (l : List ℤ) (pBest : ℚ), (∀ x ∈ l, ¬ pBest > pv x) →
      dSearchLoop pv l pBest = none := by
  intro l
  induction l with
  | nil => intro pBest _; rfl
  | cons x rest ih =>
    intro pBest h
    rw [dSearchLoop, if_neg (h x (List.mem_cons_self x rest))]
    exact ih pBest fun y hy => h y (List.mem_cons_of_mem x hy)

/-- A `d` returned by the `d` search is one of the scanned lags. -/
theorem dSearchLoop_mem (pv : ℤ → ℚ) :
    ∀ (l : List ℤ) (pBest : ℚ) (d : ℤ), dSearchLoop pv l pBest = some d → d ∈ l := by
  intro l
  induction l with
  | nil => intro pBest d h; cases h
  | cons x rest ih =>
    intro pBest d h
    rw [dSearchLoop] at h
    split at h
    · cases h; exact List.mem_cons_self x rest
    · exact List.mem_cons_of_mem x (ih pBest d h)

/-- The `s` scan returns either its incoming accumulator or a scanned lag. -/
theorem sSearchLoop_mem (macf : ℤ → ℚ) (d : ℤ) :
    ∀ (l : List ℤ) (acfBest : Option ℚ) (sBest : ℤ),
      sSearchLoop macf d l acfBest sBest = sBest ∨
        sSearchLoop macf d l acfBest sBest ∈ l := by
  intro l
  induction l with
  | nil => intro acfBest sBest; left; rfl
  | cons s rest ih =>
    intro acfBest sBest
    simp only [sSearchLoop]
    split
    · rcases ih (some (macf (d + s))) s with h | h
      · right; rw [h]; exact List.mem_cons_self s rest
      · right; exact List.mem_cons_of_mem s h
    · rcases ih acfBest sBest with h | h
      · left; exact h
      · right; exact List.mem_cons_of_mem s h

/-- Invariant of the `s` scan: starting from an accumulator that records the
mean ACF of the incumbent lag, the final lag's mean ACF is a lower bound for
the incumbent and for every scanned lag. -/
theorem sSearchLoop_min (macf : ℤ → ℚ) (d : ℤ) :
    ∀ (l : List ℤ) (a : ℚ) (s0 : ℤ), macf (d + s0) = a →
      macf (d + sSearchLoop macf d l (some a) s0) ≤ a ∧
      ∀ j ∈ l, macf (d + sSearchLoop macf d l (some a) s0) ≤ macf (d + j) := by
  intro l
  induction l with
  | nil =>
    intro a s0 h
    refine ⟨by simp [sSearchLoop, h], by simp⟩
  | cons s rest ih =>
    intro a s0 h
    simp only [sSearchLoop, ltBest_some]
    by_cases hlt : macf (d + s) < a
    · rw [if_pos (by simpa using hlt)]
      obtain ⟨hb, hall⟩ := ih (macf (d + s)) s rfl
      refine ⟨hb.trans (le_of_lt hlt), ?_⟩
      intro j hj
      rcases List.mem_cons.mp hj with rfl | hj
      · exact hb
      · exact hall j hj
    · rw [if_neg (by simpa using hlt)]
      obtain ⟨hb, hall⟩ := ih a s0 h
      refine ⟨hb, ?_⟩
      intro j hj
      rcases List.mem_cons.mp hj with rfl | hj
      · exact hb.trans (not_lt.mp hlt)
      · exact hall j hj

/-- The full `s` scan over `range(par_range)`, seeded with `s_best = 0` and
an infinite `acf_best`, minimizes the mean ACF over every scanned lag. -/
theorem sSearchLoop_min_intRange (macf : ℤ → ℚ) (d : ℤ) (m : ℕ) :
    ∀ j ∈ intRange (m + 1),
      macf (d + sSearchLoop macf d (intRange (m + 1)) none 0) ≤ macf (d + j) := by
  rw [intRange_succ_eq_cons]
  have hstep :
      sSearchLoop macf d ((0 : ℤ) :: (List.range m).map (fun k => Int.ofNat (k + 1))) none 0
        = sSearchLoop macf d ((List.range m).map (fun k => Int.ofNat (k + 1)))
            (some (macf (d + 0))) 0 := by
    simp [sSearchLoop, ltBest_none]
  rw [hstep]
  obtain ⟨hb, hall⟩ :=
    sSearchLoop_min macf d ((List.range m).map (fun k => Int.ofNat (k + 1)))
      (macf (d + 0)) 0 rfl
  intro j hj
  rcases List.mem_cons.mp hj with rfl | hj
  · exact hb
  · exact hall j hj

/-- Claim C3: the `d` search breaks at the first lag whose ADF p-value is
strictly below the running best, which starts at `0.0001`; if the `d = 0`
test is already below that threshold, the returned `d` is `0`. -/
theorem seasonality_d_zero_on_first_pass (pv macf : ℤ → ℚ) (parRange : ℕ)
    (h1 : 0 < parRange) (h2 : pv 0 < mkRat 1 10000) :
    ∃ ds s, seasonality pv macf parRange true = .ok (0, ds, s) := by
  cases parRange with
  | zero => exact absurd h1 (lt_irrefl 0)
  | succ m =>
    have hd : dSearchLoop pv (intRange (m + 1)) (mkRat 1 10000) = some 0 := by
      rw [intRange_succ_eq_cons, dSearchLoop, if_pos (gt_iff_lt.mpr h2)]
    refine ⟨if 0 < sSearchLoop macf 0 (intRange (m + 1)) none 0 then 1 else 0,
            sSearchLoop macf 0 (intRange (m + 1)) none 0, ?_⟩
    simp [seasonality, hd]

/-- Claim C3 witness: with every p-value equal to `0` (below `0.0001`) and a
positive lag bound, `seasonality` returns `d = 0`. -/
theorem seasonality_d_zero_on_first_pass_w :
    ∃ ds s, seasonality (fun _ => 0) (fun _ => 0) 1 true = .ok (0, ds, s) :=
  seasonality_d_zero_on_first_pass (fun _ => 0) (fun _ => 0) 1 (by decide) (by decide)

/-- Claim C10: when no lag in the scanned range brings the ADF p-value
strictly below the initial `0.0001`, the `d` search never assigns `d_best`
and `seasonality` raises at `d = d_best` instead of returning. -/
theorem seasonality_no_improvement_raises (pv macf : ℤ → ℚ) (parRange : ℕ)
    (h : ∀ k : ℕ, k < parRange → ¬ pv (Int.ofNat k) < mkRat 1 10000) :
    seasonality pv macf parRange true = .error .unboundLocalDBest := by
  have hd : dSearchLoop pv (intRange parRange) (mkRat 1 10000) = none := by
    apply dSearchLoop_eq_none
    intro x hx
    obtain ⟨k, hk, rfl⟩ := List.mem_map.mp hx
    exact fun hgt => h k (List.mem_range.mp hk) (gt_iff_lt.mp hgt)
  simp [seasonality, hd]

/-- Claim C10 witness: constant p-value `1` never improves on `0.0001`, so
the search raises. -/
theorem seasonality_no_improvement_raises_w :
    seasonality (fun _ => 1) (fun _ => 0) 2 true = .error .unboundLocalDBest :=
  seasonality_no_improvement_raises (fun _ => 1) (fun _ => 0) 2 (by decide)

/-- Claim C5: holding the selected `d` fixed, the seasonal scan visits every
lag in the range and the selected `s` minimizes the mean autocorrelation of
the lag-`(d+s)`-differenced series; `ds` is `1` exactly when `s > 0`. -/
theorem seasonality_s_exhaustive_min (pv macf : ℤ → ℚ) (parRange : ℕ) (d ds s : ℤ)
    (h : seasonality pv macf parRange true = .ok (d, ds, s)) :
    (∀ j : ℕ, j < parRange → macf (d + s) ≤ macf (d + (j : ℤ))) ∧
      ds = (if 0 < s then 1 else 0) := by
  simp only [seasonality] at h
  rw [if_pos trivial] at h
  split at h
  · cases h
  next d0 heq =>
    obtain ⟨m, rfl⟩ : ∃ m, parRange = m + 1 := by
      cases parRange with
      | zero => cases heq
      | succ m => exact ⟨m, rfl⟩
    simp only [Except.ok.injEq, Prod.mk.injEq] at h
    obtain ⟨rfl, rfl, rfl⟩ := h
    refine ⟨?_, rfl⟩
    intro j hj
    simpa using sSearchLoop_min_intRange macf d0 m (Int.ofNat j) (mem_intRange_of_lt hj)

/-- Claim C5 witness: with mean ACF equal to the lag, the scan keeps
`s = 0`, the minimizer, and sets `ds = 0`. -/
theorem seasonality_s_exhaustive_min_w :
    (∀ j : ℕ, j < 2 → (fun k : ℤ => (k : ℚ)) ((0 : ℤ) + (0 : ℤ))
        ≤ (fun k : ℤ => (k : ℚ)) ((0 : ℤ) + (j : ℤ))) ∧
      (0 : ℤ) = (if (0 : ℤ) < (0 : ℤ) then 1 else 0) :=
  seasonality_s_exhaustive_min (fun _ => 0) (fun k => (k : ℚ)) 2 0 0 0 rfl

/-- Claim C8: whenever `seasonality` returns, the triple satisfies
`d ≥ 0`, `s ≥ 0` and `ds ∈ {0, 1}`. -/
theorem seasonality_return_invariants (pv macf : ℤ → ℚ) (parRange : ℕ) (opt : Bool)
    (d ds s : ℤ) (h : seasonality pv macf parRange opt = .ok (d, ds, s)) :
    0 ≤ d ∧ 0 ≤ s ∧ (ds = 0 ∨ ds = 1) := by
  cases opt with
  | false => simp [seasonality] at h
  | true =>
    simp only [seasonality] at h
    rw [if_pos trivial] at h
    split at h
    · cases h
    next d0 heq =>
      simp only [Except.ok.injEq, Prod.mk.injEq] at h
      obtain ⟨rfl, rfl, rfl⟩ := h
      refine ⟨intRange_nonneg _ (dSearchLoop_mem pv _ _ _ heq), ?_, ?_⟩
      · rcases sSearchLoop_mem macf d0 (intRange parRange) none 0 with hs | hs
        · rw [hs]
        · exact intRange_nonneg _ hs
      · by_cases h0 : (0 : ℤ) < sSearchLoop macf d0 (intRange parRange) none 0
        · right; rw [if_pos h0]
        · left; rw [if_neg h0]

/-- Claim C8 witness: a run that returns `(0, 0, 0)` satisfies the
invariants. -/
theorem seasonality_return_invariants_w :
    (0 : ℤ) ≤ 0 ∧ (0 : ℤ) ≤ 0 ∧ ((0 : ℤ) = 0 ∨ (0 : ℤ) = 1) :=
  seasonality_return_invariants (fun _ => 0) (fun _ => 1) 1 true 0 0 0 rfl

/-- Claim C6: a zero predicted value in the scored window is not reported as
a failure; the division produces `+inf` (actual `1`, predicted `0` at the
first scored index) and the mean propagates it, so `error` returns `inf`. -/
theorem error_zero_predicted_returns_inf :
    Arima.error (List.replicate 11 (1 : ℚ)) (List.replicate 10 (1 : ℚ) ++ [0])
      = PyFloat.inf := by
  decide

/-- Claim C7 counterexample: two identical sequences (eleven zeros) agree
everywhere after the 10-point skip, yet `error` returns `nan` (from `0 / 0`),
not `0`. -/
theorem error_equal_sequences_cex :
    Arima.error (List.replicate 11 (0 : ℚ)) (List.replicate 11 (0 : ℚ)) = PyFloat.nan ∧
      Arima.error (List.replicate 11 (0 : ℚ)) (List.replicate 11 (0 : ℚ))
        ≠ PyFloat.fin 0 := by
  decide

theorem error_window_map_eq_replicate (w : List ℚ) (hw : ∀ x ∈ w, x ≠ 0) :
    ((w.zip w).map fun xy => pyMulHundred (pyAbs (pySubOne (pyDiv xy.1 xy.2))))
      = List.replicate w.length (PyFloat.fin 0) := by
  induction w with
  | nil => rfl
  | cons x t ih =>
    have hx : x ≠ 0 := hw x (List.mem_cons_self x t)
    have ht := ih fun y hy => hw y (List.mem_cons_of_mem x hy)
    have hhead : pyMulHundred (pyAbs (pySubOne (pyDiv x x))) = PyFloat.fin 0 := by
      simp [pyDiv, hx, div_self, pySubOne, pyAbs, pyMulHundred]
    simp only [List.zip_cons_cons, List.map_cons, List.length_cons,
      List.replicate_succ, hhead, ht]

theorem foldl_pyAdd_replicate_zero (n : ℕ) :
    List.foldl pyAdd (PyFloat.fin 0) (List.replicate n (PyFloat.fin 0))
      = PyFloat.fin 0 := by
  induction n with
  | zero => rfl
  | succ k ih => simpa [List.replicate_succ, pyAdd] using ih

/-- Claim C7 (amended): when predicted equals actual everywhere after the
10-point skip, the scored window is non-empty, and its values are nonzero,
`error` returns exactly `0`. -/
theorem error_equal_nonzero_eq_zero (data : List ℚ) (h1 : data.drop 10 ≠ [])
    (h2 : ∀ x ∈ data.drop 10, x ≠ 0) :
    Arima.error data data = PyFloat.fin 0 := by
  simp only [Arima.error]
  rw [error_window_map_eq_replicate _ h2]
  cases hw : data.drop 10 with
  | nil => exact absurd hw h1
  | cons y t =>
    rw [List.length_cons, List.replicate_succ, pyMean, ← List.replicate_succ,
      foldl_pyAdd_replicate_zero]
    simp [pyDivNat]

/-- Claim C7 witness: eleven ones give a one-point window of equal nonzero
values, and the error is exactly `0`. -/
theorem error_equal_nonzero_eq_zero_w :
    Arima.error (List.replicate 11 (1 : ℚ)) (List.replicate 11 (1 : ℚ))
      = PyFloat.fin 0 :=
  error_equal_nonzero_eq_zero (List.replicate 11 (1 : ℚ)) (by decide) (by decide)

end Arima
